import Mathlib

/-!
Shallow embedding of the Sutton Kersh property-auction scraper (`run.py`).

Modelling conventions:
* Python strings are modelled as `List Char` (the parser works on ASCII
  text plus the pound sign; `str.lower` is modelled by `Char.toLower`,
  which agrees with Python on this alphabet).
* Python `float` arithmetic is modelled as exact rational arithmetic on `ℚ`.
* Fallible code (exceptions such as `ValueError`, `IndexError`,
  `AssertionError`, `requests.HTTPError`) is modelled with `Option` /
  `Except`: `none` / `.error` means the Python code raises.
* The two regular expressions of the parser are modelled by explicit
  backtracking matchers with Python's leftmost/greedy semantics, including
  the fact that `.` does not match a newline and that `$` also matches
  just before a final newline.
-/

namespace Scraper

/-- Characters stripped by Python `str.strip()` (the ASCII whitespace set). -/
def pySpace (c : Char) : Bool :=
  c == ' ' || c == '\t' || c == '\n' || c == '\x0b' || c == '\x0c' || c == '\r'

/-- Strip `pySpace` characters from both ends, as Python `str.strip()`. -/
def pyStrip (l : List Char) : List Char :=
  ((l.dropWhile pySpace).reverse.dropWhile pySpace).reverse

/-- Value of a list of decimal digits. -/
def digitsToNat (ds : List Char) : Nat :=
  ds.foldl (fun a c => a * 10 + (c.toNat - 48)) 0

/-- Model of Python `float()` on the decimal grammar reaching `price`:
an optional sign, an integer digit run, an optional point with a
fractional digit run (at least one digit overall); the value is exact
(`ℚ` instead of IEEE doubles).  Anything else is `none` (Python raises
`ValueError`). -/
def parseFloat? (s : List Char) : Option ℚ :=
  let core : List Char → Option ℚ := fun t =>
    let ip := t.takeWhile Char.isDigit
    match t.drop ip.length with
    | [] => if ip.isEmpty then none else some (digitsToNat ip)
    | '.' :: r =>
      let fp := r.takeWhile Char.isDigit
      if (r.drop fp.length).isEmpty then
        if ip.isEmpty && fp.isEmpty then none
        else some ((digitsToNat ip : ℚ) + (digitsToNat fp : ℚ) / (10 : ℚ) ^ fp.length)
      else none
    | _ => none
  match s with
  | '-' :: r => (core r).map (fun q => -q)
  | '+' :: r => core r
  | r => core r

/-- Truncation toward zero, the behaviour of Python `int()` on a float. -/
def truncToInt (q : ℚ) : ℤ :=
  if 0 ≤ q then ⌊q⌋ else -⌊-q⌋

/-- Model of `PropertyRowParser.price`: `int(float(price_string.replace(',', '').strip()))`. -/
def price (s : List Char) : Option ℤ :=
  (parseFloat? (pyStrip (s.filter (fun c => c != ',')))).map truncToInt

/-- The character class `[0-9,]` of the two guide-price patterns. -/
def priceChar (c : Char) : Bool := c.isDigit || c == ','

/-- The character class `[0-9,.]` of the annual-income pattern. -/
def incomeChar (c : Char) : Bool := c.isDigit || c == ',' || c == '.'

/-- The literal head of both guide-price patterns. -/
def guideHead : List Char := "Guide Price: £".toList

/-- Python `$`: end of input, or just before one final newline. -/
def endAnchor (l : List Char) : Bool := l.isEmpty || l == ['\n']

/-- One backtracking position for `.+£(?P<high>[0-9,]+)\*$` inside pattern 1:
`i` is the index of the literal `£`, the `.+` part covers indices `< i`
(so it must be nonempty and free of newlines), and after the `£` a maximal
nonempty `[0-9,]` run must be followed by `*` and the end anchor. -/
def tailMatchAt (rest1 : List Char) (i : Nat) : Option (List Char) :=
  if h : i < rest1.length then
    if 1 ≤ i ∧ rest1[i] = '£' ∧ (rest1.take i).all (fun c => c != '\n') then
      let d := rest1.drop (i + 1)
      let run2 := d.takeWhile priceChar
      match d.drop run2.length with
      | '*' :: tail => if !run2.isEmpty && endAnchor tail then some run2 else none
      | _ => none
    else none
  else none

/-- Greedy `.+`: try the rightmost viable `£` first. -/
def pat1Tail (rest1 : List Char) : Option (List Char) :=
  ((List.range rest1.length).reverse).findSome? (tailMatchAt rest1)

/-- Pattern 1, `re.match(r'Guide Price: £(?P<low>[0-9,]+).+£(?P<high>[0-9,]+)\*$', status)`:
greedy `low` run with backtracking (longest viable run first), then the
greedy tail matcher; returns the two captured groups. -/
def pat1 (status : List Char) : Option (List Char × List Char) :=
  if guideHead.isPrefixOf status then
    let t := status.drop guideHead.length
    let run1 := t.takeWhile priceChar
    ((List.range run1.length).reverse).findSome? (fun j =>
      (pat1Tail (t.drop (j + 1))).map (fun g2 => (run1.take (j + 1), g2)))
  else none

/-- Pattern 2, `re.match(r'Guide Price: £(?P<price>[0-9,]+)\+\*$', status)`: the
`[0-9,]+` run is necessarily maximal (`+` is outside the class), so no
backtracking is needed; returns the captured group. -/
def pat2 (status : List Char) : Option (List Char) :=
  if guideHead.isPrefixOf status then
    let t := status.drop guideHead.length
    let run := t.takeWhile priceChar
    match t.drop run.length with
    | '+' :: '*' :: tail =>
      if !run.isEmpty && endAnchor tail then some run else none
    | _ => none
  else none

/-- Model of `PropertyRowParser._parse_guide_price_range`: try pattern 1, then
pattern 2, else `(None, None)`.  `.error` models a `ValueError` escaping
from `price` on a malformed captured group. -/
def parse_guide_price_range (status : List Char) :
    Except Unit (Option ℤ × Option ℤ) :=
  match pat1 status with
  | some (lo, hi) =>
    match price lo, price hi with
    | some l, some h => .ok (some l, some h)
    | _, _ => .error ()
  | none =>
    match pat2 status with
    | some run =>
      match price run with
      | some p => .ok (some p, some p)
      | none => .error ()
    | none => .ok (none, none)

/-- Python substring test `needle in hay`. -/
def strContains (hay needle : List Char) : Bool :=
  needle.isPrefixOf hay ||
    match hay with
    | [] => false
    | _ :: t => strContains t needle

/-- The marker substring of the tenancy test. -/
def astMarker : List Char := "assured shorthold".toList

/-- Model of `PropertyRowParser.has_assured_shorthold_tenancy`:
`'assured shorthold' in self.description.lower()`. -/
def has_assured_shorthold_tenancy (desc : List Char) : Bool :=
  strContains (desc.map Char.toLower) astMarker

/-- The literal tail of the annual-income pattern. -/
def annumTail : List Char := " per annum".toList

/-- The income search `re.search('£(?P<income>[0-9,.]+) per annum', description)`: leftmost
match wins; at a given `£` the greedy `[0-9,.]+` run is necessarily
maximal, because the space that must follow it is outside the class.
Returns the captured `income` group. -/
def astIncomeSearch : List Char → Option (List Char)
  | [] => none
  | c :: rest =>
    if c = '£' then
      let run := rest.takeWhile incomeChar
      if !run.isEmpty && annumTail.isPrefixOf (rest.drop run.length) then
        some run
      else astIncomeSearch rest
    else astIncomeSearch rest

/-- Model of `PropertyRowParser.ast_annual_income`: `None` unless the tenancy flag
holds; otherwise search for the income pattern and parse the captured
group as a price (`.error` models a `ValueError` escaping from `price`). -/
def ast_annual_income (desc : List Char) : Except Unit (Option ℤ) :=
  if has_assured_shorthold_tenancy desc then
    match astIncomeSearch desc with
    | none => .ok none
    | some run =>
      match price run with
      | some n => .ok (some n)
      | none => .error ()
  else .ok none

/-- The fields of a row dict that `add_calculations` reads or writes.
Before `add_calculations` runs, the five derived keys are absent
(`as_dict` never sets them), hence the `none` defaults. -/
structure Row where
  ast_annual_income : Option ℤ := none
  guide_price_high : Option ℤ := none
  yield_guide_price_high : Option ℚ := none
  price_10pct_yield : Option ℚ := none
  price_12_5pct_yield : Option ℚ := none
  price_15pct_yield : Option ℚ := none
  price_20pct_yield : Option ℚ := none
  deriving DecidableEq

/-- Model of `add_calculations(row)`: `if annual_income:` is Python truthiness, so
a `None` or a zero income skips the whole block, and a `None` or zero
`guide_price_high` skips the ratio.  The float literals `0.10`, `0.125`,
`0.15`, `0.20` are the exact rationals `1/10`, `1/8`, `3/20`, `1/5`. -/
def add_calculations (row : Row) : Row :=
  match row.ast_annual_income with
  | none => row
  | some a =>
    if a = 0 then row
    else
      let row1 := { row with
        price_10pct_yield := some ((a : ℚ) / (1 / 10)),
        price_12_5pct_yield := some ((a : ℚ) / (1 / 8)),
        price_15pct_yield := some ((a : ℚ) / (3 / 20)),
        price_20pct_yield := some ((a : ℚ) / (1 / 5)) }
      match row.guide_price_high with
      | none => row1
      | some g =>
        if g = 0 then row1
        else { row1 with yield_guide_price_high := some (((g : ℚ) / (a : ℚ)) / 100) }

/-- The income/yield slice of `get_rows_from_page` for one row: parse
`ast_annual_income` from the description, then run `add_calculations`
on the fresh row dict. -/
def rowFromDescription (desc : List Char) (gph : Option ℤ) : Except Unit Row :=
  match ast_annual_income desc with
  | .error e => .error e
  | .ok inc => .ok (add_calculations { ast_annual_income := inc, guide_price_high := gph })

/-- The detail `<tr>` of a row pair, reduced to what the parser reads from
it here: the text contents of its `p.descriptionText` paragraphs, in
document order. -/
structure DetailTr where
  descriptionPs : List (List Char)
  deriving DecidableEq

/-- A header `<tr>`, reduced to its following `<tr>` siblings in document
order. -/
structure HeaderTr where
  followingSiblingTrs : List DetailTr
  deriving DecidableEq

/-- Model of `PropertyRowParser.__init__`: `header_tr.xpath('./following-sibling::tr')[0]`.
The xpath returns every later `<tr>` sibling; `[0]` takes the first and
raises `IndexError` (here `none`) only when there is none at all. -/
def detail_tr (h : HeaderTr) : Option DetailTr :=
  h.followingSiblingTrs.head?

/-- Model of `PropertyRowParser.description`:
`self.detail_tr.xpath(".//p[contains(@class, 'descriptionText')]")[0].text_content()`.
`[0]` takes the first matching paragraph (`IndexError`, here `none`, when
there is none); the text content is returned with no `.strip()`. -/
def description (d : DetailTr) : Option (List Char) :=
  d.descriptionPs.head?

/-- The tuple `FIELDS` of `run.py`, in source order. -/
def FIELDS : List String :=
  ["lot_number", "street_address", "postcode", "status",
   "guide_price_low", "guide_price_high", "_yield_guide_price_high",
   "_price_10pct_yield", "_price_12.5pct_yield", "_price_15pct_yield",
   "_price_20pct_yield", "has_assured_shorthold_tenancy",
   "ast_annual_income", "description", "detail_url", "photo_url"]

/-- A row dict as handed to `csv.DictWriter.writerow`: each key maps to an
already-stringified value, or to nothing when the key is absent or `None`
(both are written identically by the csv module). -/
def CsvRow : Type := String → Option String

/-- Field lookup of `DictWriter`: it looks every field name up in the dict; a missing key
falls back to the `restval` default `None`. -/
def dictWriterRecord (fields : List String) (r : CsvRow) : List (Option String) :=
  fields.map r

/-- The csv writer serializes `None` as the empty string. -/
def csvCell (v : Option String) : String := v.getD ""

/-- Model of `output_csv(rows)`: one header record naming the fields, then one
record per row, in order; every record is serialized cell by cell. -/
def output_csv (rows : List CsvRow) : List (List String) :=
  ((FIELDS.map some) :: rows.map (dictWriterRecord FIELDS)).map
    (fun cells => cells.map csvCell)

/-- The constant `PAGE_ENCODING` of `run.py`. -/
def PAGE_ENCODING : String := "utf-8"

/-- An HTTP response as the fetcher consumes it. -/
structure Response where
  statusCode : Nat
  encoding : String
  content : List Nat
  text : List Char
  deriving DecidableEq

/-- The one piece of filesystem state the program touches: the contents of
the local `sample_page.html` snapshot, or `none` when the file does not
exist. -/
structure FetchState where
  snapshot : Option (List Nat)
  deriving DecidableEq

/-- The two failures of the fetch stage. -/
inductive FetchErr where
  | httpError
  | encodingAssert
  deriving DecidableEq

/-- Model of `response.raise_for_status()`: raises exactly on 4xx and 5xx codes. -/
def raise_for_status (r : Response) : Except FetchErr Unit :=
  if 400 ≤ r.statusCode ∧ r.statusCode < 600 then .error .httpError else .ok ()

/-- Model of `write_back_page_to_file(response)`: the encoding assertion runs
before the file is opened, so on mismatch the snapshot is untouched;
on success the snapshot is overwritten with the raw bytes, with no look
at its prior contents. -/
def write_back_page_to_file (r : Response) (_st : FetchState) :
    Except FetchErr FetchState :=
  if r.encoding = PAGE_ENCODING then .ok { snapshot := some r.content }
  else .error .encodingAssert

/-- Model of `html_from_url(url)`: check the status, write the snapshot back, and
return `response.text`; the snapshot state is threaded explicitly and is
returned unchanged on either failure. -/
def html_from_url (r : Response) (st : FetchState) :
    Except FetchErr (List Char) × FetchState :=
  match raise_for_status r with
  | .error e => (.error e, st)
  | .ok _ =>
    match write_back_page_to_file r st with
    | .error e => (.error e, st)
    | .ok st2 => (.ok r.text, st2)

/-- C2 counterexample: the claim quantifies over every row where
`ast_annual_income` is present, but `add_calculations` gates on Python
truthiness, so a present-but-zero income leaves every yield-price field
absent instead of equal to `0 / rate`. -/
theorem c2_zero_income_counterexample :
    (add_calculations { ast_annual_income := some 0 }).ast_annual_income = some 0 ∧
    (add_calculations { ast_annual_income := some 0 }).price_10pct_yield = none ∧
    (add_calculations { ast_annual_income := some 0 }).price_10pct_yield ≠
      some ((0 : ℚ) / (0.10 : ℚ)) := by
  refine ⟨rfl, rfl, ?_⟩
  intro h
  exact Option.noConfusion h

/-- C2 (amended): for every row whose `ast_annual_income` is present and
non-zero, each of the four yield-price fields of `add_calculations` equals
the income divided by its fixed rate (0.10, 0.125, 0.15, 0.20), exactly;
and when additionally `guide_price_high` is present and non-zero, the
yield-ratio field equals `(guide_price_high / ast_annual_income) / 100`. -/
theorem c2_yield_fields (row : Row) (a : ℤ)
    (ha : row.ast_annual_income = some a) (h0 : a ≠ 0) :
    (add_calculations row).price_10pct_yield = some ((a : ℚ) / (0.10 : ℚ)) ∧
    (add_calculations row).price_12_5pct_yield = some ((a : ℚ) / (0.125 : ℚ)) ∧
    (add_calculations row).price_15pct_yield = some ((a : ℚ) / (0.15 : ℚ)) ∧
    (add_calculations row).price_20pct_yield = some ((a : ℚ) / (0.20 : ℚ)) ∧
    (∀ g : ℤ, row.guide_price_high = some g → g ≠ 0 →
      (add_calculations row).yield_guide_price_high =
        some (((g : ℚ) / (a : ℚ)) / 100)) := by
  have hrate10 : (0.10 : ℚ) = 1 / 10 := by norm_num
  have hrate125 : (0.125 : ℚ) = 1 / 8 := by norm_num
  have hrate15 : (0.15 : ℚ) = 3 / 20 := by norm_num
  have hrate20 : (0.20 : ℚ) = 1 / 5 := by norm_num
  simp only [add_calculations, ha, if_neg h0]
  rcases hg : row.guide_price_high with _ | g
  · simp [hrate10, hrate125, hrate15, hrate20, hg]
  · rcases eq_or_ne g 0 with rfl | hg0
    · simp [hrate10, hrate125, hrate15, hrate20, hg]
    · simp [hrate10, hrate125, hrate15, hrate20, hg, hg0]

/-- C2 witness: income 15400 with guide price 120000. -/
theorem c2_yield_fields_witness :
    (add_calculations
      { ast_annual_income := some 15400, guide_price_high := some 120000 }).price_10pct_yield
      = some ((15400 : ℚ) / (0.10 : ℚ)) ∧
    (add_calculations
      { ast_annual_income := some 15400, guide_price_high := some 120000 }).yield_guide_price_high
      = some (((120000 : ℚ) / (15400 : ℚ)) / 100) := by
  have h := c2_yield_fields
    { ast_annual_income := some 15400, guide_price_high := some 120000 }
    15400 rfl (by decide)
  exact ⟨h.1, h.2.2.2.2 120000 rfl (by decide)⟩

/-- C3: when the tenancy flag is false, the income parse yields `None`
without error, and the derived-calculation step leaves the income field
and all five derived fields absent. -/
theorem c3_no_tenancy_all_absent (desc : List Char) (gph : Option ℤ)
    (h : has_assured_shorthold_tenancy desc = false) :
    rowFromDescription desc gph = .ok { guide_price_high := gph } := by
  rw [rowFromDescription, ast_annual_income, h]
  rfl

/-- C3 witness: a description with no tenancy clause. -/
theorem c3_no_tenancy_all_absent_witness :
    rowFromDescription ("A vacant mid-terraced house.".toList) (some 90000) =
      .ok { guide_price_high := some 90000 } :=
  c3_no_tenancy_all_absent ("A vacant mid-terraced house.".toList) (some 90000)
    (by decide)

/-- C10: `add_calculations` gates on truthiness, not presence: a present
but zero income adds nothing at all, and with a non-zero income a present
but zero `guide_price_high` leaves the yield-ratio field absent while the
four yield-price fields are set. -/
theorem c10_truthiness_gate (inc gph : Option ℤ) :
    (inc = some 0 →
      add_calculations { ast_annual_income := inc, guide_price_high := gph } =
        { ast_annual_income := some 0, guide_price_high := gph }) ∧
    (∀ a : ℤ, inc = some a → a ≠ 0 → gph = some 0 →
      (add_calculations
        { ast_annual_income := inc, guide_price_high := gph }).yield_guide_price_high
        = none ∧
      (add_calculations
        { ast_annual_income := inc, guide_price_high := gph }).price_10pct_yield
        = some ((a : ℚ) / (0.10 : ℚ))) := by
  constructor
  · rintro rfl
    rw [add_calculations]
    simp
  · rintro a rfl h0 rfl
    rw [add_calculations]
    simp only [if_neg h0]
    refine ⟨rfl, ?_⟩
    have : (0.10 : ℚ) = 1 / 10 := by norm_num
    simp [this]

/-- C10 witness: zero income, and zero guide price with non-zero income. -/
theorem c10_truthiness_gate_witness :
    add_calculations { ast_annual_income := some 0, guide_price_high := some 3 } =
      { ast_annual_income := some 0, guide_price_high := some 3 } ∧
    (add_calculations
      { ast_annual_income := some 5, guide_price_high := some 0 }).yield_guide_price_high
      = none :=
  ⟨(c10_truthiness_gate (some 0) (some 3)).1 rfl,
   ((c10_truthiness_gate (some 5) (some 0)).2 5 rfl (by decide) rfl).1⟩

/-- C6 counterexample: a header row with two following-sibling rows does
not fail; the first sibling is silently used as the detail row, because
`xpath('./following-sibling::tr')[0]` never checks the cardinality. -/
theorem c6_multiple_siblings_no_error :
    (HeaderTr.mk [DetailTr.mk [], DetailTr.mk [['x']]]).followingSiblingTrs.length = 2 ∧
    detail_tr (HeaderTr.mk [DetailTr.mk [], DetailTr.mk [['x']]]) = some (DetailTr.mk []) :=
  ⟨rfl, rfl⟩

/-- C6 (amended): with zero following-sibling rows the `[0]` lookup fails
(`IndexError`) and halts the run; with one or more, the first
following-sibling row is used as the detail row, with no error. -/
theorem c6_detail_row_selection (h : HeaderTr) :
    (h.followingSiblingTrs = [] → detail_tr h = none) ∧
    (∀ d rest, h.followingSiblingTrs = d :: rest → detail_tr h = some d) := by
  constructor
  · intro he
    rw [detail_tr, he]
    rfl
  · intro d rest he
    rw [detail_tr, he]
    rfl

/-- C6 witness: no sibling fails, one sibling is taken. -/
theorem c6_detail_row_selection_witness :
    detail_tr (HeaderTr.mk []) = none ∧
    detail_tr (HeaderTr.mk [DetailTr.mk []]) = some (DetailTr.mk []) :=
  ⟨(c6_detail_row_selection (HeaderTr.mk [])).1 rfl,
   (c6_detail_row_selection (HeaderTr.mk [DetailTr.mk []])).2 (DetailTr.mk []) [] rfl⟩

/-- C7 counterexample: `description` returns `text_content()` with no
`.strip()`, so a paragraph whose text carries surrounding whitespace is
emitted with that whitespace intact, contrary to the claimed stripping. -/
theorem c7_description_keeps_whitespace :
    description (DetailTr.mk [" Vacant possession. ".toList]) =
      some (" Vacant possession. ".toList) ∧
    pyStrip (" Vacant possession. ".toList) ≠ " Vacant possession. ".toList :=
  ⟨rfl, by decide⟩

/-- C7 (amended): the description is the raw, unstripped text content of
the first paragraph in the detail row whose class contains the marker
substring; with no such paragraph the `[0]` lookup fails (`IndexError`). -/
theorem c7_description_raw (d : DetailTr) :
    (d.descriptionPs = [] → description d = none) ∧
    (∀ p rest, d.descriptionPs = p :: rest → description d = some p) := by
  constructor
  · intro he
    rw [description, he]
    rfl
  · intro p rest he
    rw [description, he]
    rfl

/-- C7 witness: a one-paragraph detail row. -/
theorem c7_description_raw_witness :
    description (DetailTr.mk [['h', 'i']]) = some ['h', 'i'] :=
  (c7_description_raw (DetailTr.mk [['h', 'i']])).2 ['h', 'i'] [] rfl

/-- C8: `output_csv` emits one header record carrying the 16 field names
in their fixed order, followed by one record per row in order, and every
absent field of a row is serialized as the empty string. -/
theorem c8_csv_shape (rows : List CsvRow) :
    (output_csv rows).head? = some FIELDS ∧
    (output_csv rows).length = rows.length + 1 ∧
    FIELDS.length = 16 ∧
    FIELDS = ["lot_number", "street_address", "postcode", "status",
      "guide_price_low", "guide_price_high", "_yield_guide_price_high",
      "_price_10pct_yield", "_price_12.5pct_yield", "_price_15pct_yield",
      "_price_20pct_yield", "has_assured_shorthold_tenancy",
      "ast_annual_income", "description", "detail_url", "photo_url"] ∧
    (∀ (k : Nat) (r : CsvRow), rows[k]? = some r →
      (output_csv rows)[k + 1]? = some (FIELDS.map (fun f => (r f).getD ""))) ∧
    (∀ (k : Nat) (r : CsvRow) (i : Nat) (f : String),
      rows[k]? = some r → FIELDS[i]? = some f → r f = none →
      ((output_csv rows)[k + 1]?).bind (fun cells => cells[i]?) = some "") := by
  have hrec : ∀ (k : Nat) (r : CsvRow), rows[k]? = some r →
      (output_csv rows)[k + 1]? = some (FIELDS.map (fun f => (r f).getD "")) := by
    intro k r hk
    simp [output_csv, dictWriterRecord, csvCell, List.getElem?_map, hk,
      List.map_map, Function.comp]
  refine ⟨?_, ?_, rfl, rfl, hrec, ?_⟩
  · simp [output_csv, csvCell, List.map_map, Function.comp_def]
  · simp [output_csv]
  · intro k r i f hk hf hrf
    rw [hrec k r hk]
    simp [List.getElem?_map, hf, hrf]

/-- C8 witness: a single row with only the lot number set; the `status`
column of its record is empty. -/
theorem c8_csv_shape_witness :
    (output_csv [fun f => if f = "lot_number" then some "12" else none]).head?
      = some FIELDS ∧
    ((output_csv [fun f => if f = "lot_number" then some "12" else none])[1]?).bind
      (fun cells => cells[3]?) = some "" := by
  have h := c8_csv_shape [fun f => if f = "lot_number" then some "12" else none]
  exact ⟨h.1, h.2.2.2.2.2 0 (fun f => if f = "lot_number" then some "12" else none)
    3 "status" rfl rfl (by decide)⟩

/-- A maximal run taken by `takeWhile` followed by the drop of its length
reassembles the list. -/
theorem append_drop_takeWhile {α : Type} (p : α → Bool) (l : List α) :
    l.takeWhile p ++ l.drop (l.takeWhile p).length = l := by
  obtain ⟨t, ht⟩ := List.takeWhile_prefix (l := l) p
  generalize hA : l.takeWhile p = A at ht ⊢
  rw [← ht, List.drop_left]

/-- Characterization: `strContains` is Python's substring test. -/
theorem strContains_iff_isInfix (needle hay : List Char) :
    strContains hay needle = true ↔ needle <:+: hay := by
  induction hay with
  | nil => simp [strContains]
  | cons a t ih =>
    rw [strContains]
    simp [List.infix_cons_iff, ih]

/-- Soundness of the annual-income search: a returned group is a nonempty
`[0-9,.]` run sitting between a literal `£` and the literal ` per annum`
somewhere in the description. -/
theorem astIncomeSearch_sound :
    ∀ {desc run : List Char}, astIncomeSearch desc = some run →
      run ≠ [] ∧ run.all incomeChar ∧
        ∃ u v, desc = u ++ '£' :: (run ++ (annumTail ++ v)) := by
  intro desc
  induction desc with
  | nil => intro run h; simp [astIncomeSearch] at h
  | cons c rest ih =>
    intro run h
    simp only [astIncomeSearch] at h
    by_cases hc : c = '£'
    · rw [if_pos hc] at h
      by_cases hm : (!(rest.takeWhile incomeChar).isEmpty &&
          annumTail.isPrefixOf (rest.drop (rest.takeWhile incomeChar).length)) = true
      · rw [if_pos hm] at h
        injection h with h0
        obtain ⟨h1, h2⟩ := Bool.and_eq_true_iff.mp hm
        rw [Bool.not_eq_true'] at h1
        refine ⟨?_, ?_, [], ?_, ?_⟩
        · rw [← h0]
          exact List.isEmpty_eq_false.mp h1
        · rw [← h0]
          exact List.all_eq_true.mpr (fun x hx => List.mem_takeWhile_imp hx)
        · exact Classical.choose (List.isPrefixOf_iff_prefix.mp h2)
        · have hv := Classical.choose_spec (List.isPrefixOf_iff_prefix.mp h2)
          rw [List.nil_append, hc, ← h0]
          rw [hv]
          rw [append_drop_takeWhile]
      · rw [if_neg hm] at h
        obtain ⟨hne, hall, u, v, hd⟩ := ih h
        exact ⟨hne, hall, c :: u, v, by rw [List.cons_append, ← hd]⟩
    · rw [if_neg hc] at h
      obtain ⟨hne, hall, u, v, hd⟩ := ih h
      exact ⟨hne, hall, c :: u, v, by rw [List.cons_append, ← hd]⟩

/-- C4: the tenancy flag is exactly the case-insensitive substring test
for "assured shorthold"; when the flag is false the income is absent;
when the flag is true and the income pattern finds no match the income is
absent with no error; a found match is a nonempty digits/commas/periods
run between `£` and ` per annum` in the description, and its parsed price
is returned. -/
theorem c4_tenancy_and_income (desc : List Char) :
    (has_assured_shorthold_tenancy desc = true ↔
      astMarker <:+: desc.map Char.toLower) ∧
    (has_assured_shorthold_tenancy desc = false →
      ast_annual_income desc = .ok none) ∧
    (has_assured_shorthold_tenancy desc = true → astIncomeSearch desc = none →
      ast_annual_income desc = .ok none) ∧
    (∀ run, astIncomeSearch desc = some run →
      run ≠ [] ∧ run.all incomeChar ∧
        ∃ u v, desc = u ++ '£' :: (run ++ (annumTail ++ v))) ∧
    (has_assured_shorthold_tenancy desc = true →
      ∀ run n, astIncomeSearch desc = some run → price run = some n →
        ast_annual_income desc = .ok (some n)) := by
  refine ⟨?_, ?_, ?_, ?_, ?_⟩
  · rw [has_assured_shorthold_tenancy]
    exact strContains_iff_isInfix astMarker (desc.map Char.toLower)
  · intro h
    simp [ast_annual_income, h]
  · intro hf hs
    simp [ast_annual_income, hf, hs]
  · intro run h
    exact astIncomeSearch_sound h
  · intro hf run n hs hp
    simp [ast_annual_income, hf, hs, hp]

/-- C4 witness: the tenancy sentence from the spec, with income 15400. -/
theorem c4_tenancy_and_income_witness :
    has_assured_shorthold_tenancy
      ("Let on an Assured Shorthold Tenancy at £15,400 per annum.".toList) = true ∧
    ast_annual_income
      ("Let on an Assured Shorthold Tenancy at £15,400 per annum.".toList) =
      .ok (some 15400) := by
  refine ⟨by decide, ?_⟩
  exact (c4_tenancy_and_income
      ("Let on an Assured Shorthold Tenancy at £15,400 per annum.".toList)).2.2.2.2
    (by decide) ("15,400".toList) 15400 (by decide) (by decide)

/-- Bounds characterizing truncation toward zero: the result is within
one of the value, no larger in absolute value, and keeps the sign. -/
theorem truncToInt_spec (q : ℚ) :
    |((truncToInt q : ℤ) : ℚ)| ≤ |q| ∧ |q| < |((truncToInt q : ℤ) : ℚ)| + 1 ∧
    (0 ≤ q → 0 ≤ truncToInt q) ∧ (q ≤ 0 → truncToInt q ≤ 0) := by
  rcases le_or_lt 0 q with h | h
  · rw [truncToInt, if_pos h]
    have h0 : (0 : ℤ) ≤ ⌊q⌋ := Int.floor_nonneg.mpr h
    have h0q : (0 : ℚ) ≤ ((⌊q⌋ : ℤ) : ℚ) := by exact_mod_cast h0
    rw [abs_of_nonneg h0q, abs_of_nonneg h]
    refine ⟨Int.floor_le q, Int.lt_floor_add_one q, fun _ => h0, fun hq0 => ?_⟩
    have hq' : q = 0 := le_antisymm hq0 h
    simp [hq']
  · rw [truncToInt, if_neg (not_le.mpr h)]
    have h0 : (0 : ℤ) ≤ ⌊-q⌋ := Int.floor_nonneg.mpr (by linarith)
    have habs : |((-⌊-q⌋ : ℤ) : ℚ)| = ((⌊-q⌋ : ℤ) : ℚ) := by
      push_cast
      rw [abs_neg, abs_of_nonneg (by exact_mod_cast h0)]
    rw [habs, abs_of_neg h]
    exact ⟨Int.floor_le (-q), Int.lt_floor_add_one (-q),
      fun h2 => absurd h2 (not_le.mpr h), fun _ => neg_nonpos.mpr h0⟩

/-- Stripping ignores a leading space. -/
theorem pyStrip_cons_space (l : List Char) : pyStrip (' ' :: l) = pyStrip l := by
  rw [pyStrip, pyStrip]
  simp [List.dropWhile_cons, pySpace]

/-- Stripping ignores a trailing space. -/
theorem pyStrip_append_space (l : List Char) : pyStrip (l ++ [' ']) = pyStrip l := by
  rw [pyStrip, pyStrip, List.dropWhile_append]
  by_cases h : (l.dropWhile pySpace).isEmpty
  · rw [if_pos h]
    rw [List.isEmpty_eq_true.mp h]
    simp [pySpace]
  · rw [if_neg h]
    simp [List.reverse_append, List.singleton_append, List.dropWhile_cons, pySpace]

/-- C5: whenever the cleaned numeric text parses as a (rational-valued)
float `q`, `price` returns `q` truncated toward zero; `price` is
invariant under surrounding whitespace and under comma removal; the two
spec examples hold; and malformed numeric text fails. -/
theorem c5_price_contract (s : List Char) (q : ℚ)
    (hq : parseFloat? (pyStrip (s.filter (fun c => c != ','))) = some q) :
    price s = some (truncToInt q) ∧
    |((truncToInt q : ℤ) : ℚ)| ≤ |q| ∧
    |q| < |((truncToInt q : ℤ) : ℚ)| + 1 ∧
    (0 ≤ q → 0 ≤ truncToInt q) ∧
    (q ≤ 0 → truncToInt q ≤ 0) ∧
    price (' ' :: (s ++ [' '])) = price s ∧
    price (s.filter (fun c => c != ',')) = price s ∧
    price ("1500".toList) = some 1500 ∧
    price ("1,250,000".toList) = some 1250000 ∧
    price ("12a3".toList) = none := by
  obtain ⟨hb1, hb2, hb3, hb4⟩ := truncToInt_spec q
  refine ⟨?_, hb1, hb2, hb3, hb4, ?_, ?_, by decide, by decide, by decide⟩
  · rw [price, hq]
    rfl
  · rw [price, price]
    have hsp : (' ' != ',') = true := rfl
    have hfl : (' ' :: (s ++ [' '])).filter (fun c => c != ',') =
        ' ' :: (s.filter (fun c => c != ',') ++ [' ']) := by
      simp [List.filter_cons, List.filter_append, hsp]
    rw [hfl, pyStrip_cons_space, pyStrip_append_space]
  · rw [price, price, List.filter_filter]
    simp

/-- C5 witness: a comma-separated clean integer. -/
theorem c5_price_contract_witness :
    price ("1,500".toList) = some (truncToInt 1500) :=
  (c5_price_contract ("1,500".toList) 1500 (by decide)).1

/-- Soundness of one tail position of pattern 1: a success at index `i`
decomposes the remainder into a nonempty newline-free `.+` span, the
literal `£`, the captured high group, the literal `*`, and the anchor. -/
theorem tailMatchAt_sound {rest1 g2 : List Char} {i : Nat}
    (h : tailMatchAt rest1 i = some g2) :
    ∃ mid tail, rest1 = mid ++ '£' :: (g2 ++ '*' :: tail) ∧ mid ≠ [] ∧
      mid.all (fun c => c != '\n') ∧ g2 ≠ [] ∧ g2.all priceChar ∧
      (tail = [] ∨ tail = ['\n']) := by
  simp only [tailMatchAt] at h
  split at h
  case isTrue hlen =>
    split at h
    case isTrue hcond =>
      obtain ⟨h1, h2, h3⟩ := hcond
      split at h
      case h_1 tail heq =>
        split at h
        case isTrue hok =>
          injection h with h0
          obtain ⟨hne, hanch⟩ := Bool.and_eq_true_iff.mp hok
          rw [Bool.not_eq_true'] at hne
          simp only [endAnchor, Bool.or_eq_true, List.isEmpty_eq_true,
            beq_iff_eq] at hanch
          refine ⟨rest1.take i, tail, ?_, ?_, h3, ?_, ?_, hanch⟩
          · have hd : rest1.drop (i + 1) = g2 ++ '*' :: tail := by
              conv_lhs => rw [← append_drop_takeWhile priceChar (rest1.drop (i + 1))]
              rw [heq, h0]
            conv_lhs => rw [← List.take_append_drop i rest1]
            rw [List.drop_eq_getElem_cons hlen, h2, hd]
          · have hlt : (rest1.take i).length = i := by
              rw [List.length_take]
              omega
            refine List.ne_nil_of_length_pos ?_
            omega
          · rw [← h0]
            exact List.isEmpty_eq_false.mp hne
          · rw [← h0]
            exact List.all_eq_true.mpr (fun x hx => List.mem_takeWhile_imp hx)
        case isFalse _ => simp at h
      case h_2 _ _ => simp at h
    case isFalse _ => simp at h
  case isFalse _ => simp at h

/-- Soundness of the greedy tail matcher of pattern 1. -/
theorem pat1Tail_sound {rest1 g2 : List Char} (h : pat1Tail rest1 = some g2) :
    ∃ mid tail, rest1 = mid ++ '£' :: (g2 ++ '*' :: tail) ∧ mid ≠ [] ∧
      mid.all (fun c => c != '\n') ∧ g2 ≠ [] ∧ g2.all priceChar ∧
      (tail = [] ∨ tail = ['\n']) := by
  rw [pat1Tail] at h
  obtain ⟨i, _, hmi⟩ := List.exists_of_findSome?_eq_some h
  exact tailMatchAt_sound hmi

/-- Soundness of pattern 1: a match decomposes the status into the
literal head, a nonempty `[0-9,]` low group, a nonempty newline-free
span, `£`, a nonempty `[0-9,]` high group, `*`, and the anchor. -/
theorem pat1_sound {s lo hi : List Char} (h : pat1 s = some (lo, hi)) :
    ∃ mid tail, s = guideHead ++ (lo ++ (mid ++ '£' :: (hi ++ '*' :: tail))) ∧
      lo ≠ [] ∧ lo.all priceChar ∧ mid ≠ [] ∧ mid.all (fun c => c != '\n') ∧
      hi ≠ [] ∧ hi.all priceChar ∧ (tail = [] ∨ tail = ['\n']) := by
  simp only [pat1] at h
  split at h
  case isTrue hp =>
    obtain ⟨j, hj, hmj⟩ := List.exists_of_findSome?_eq_some h
    rw [List.mem_reverse, List.mem_range] at hj
    obtain ⟨g2, hg2, hpair⟩ := Option.map_eq_some'.mp hmj
    cases hpair
    obtain ⟨mid, tail, hrest, hmidne, hmidall, hg2ne, hg2all, htail⟩ :=
      pat1Tail_sound hg2
    obtain ⟨t0, ht0⟩ := List.isPrefixOf_iff_prefix.mp hp
    have ht0' : s.drop guideHead.length = t0 := by
      rw [← ht0, List.drop_left]
    have htake : (s.drop guideHead.length).take (j + 1) =
        ((s.drop guideHead.length).takeWhile priceChar).take (j + 1) := by
      obtain ⟨t2, ht2⟩ :=
        List.takeWhile_prefix (l := s.drop guideHead.length) priceChar
      conv_lhs => rw [← ht2]
      rw [List.take_append_eq_append_take]
      rw [show j + 1 - ((s.drop guideHead.length).takeWhile priceChar).length = 0
        from by omega]
      simp
    refine ⟨mid, tail, ?_, ?_, ?_, hmidne, hmidall, hg2ne, hg2all, htail⟩
    · conv_lhs => rw [← ht0]
      congr 1
      rw [← ht0']
      conv_lhs => rw [← List.take_append_drop (j + 1) (s.drop guideHead.length)]
      rw [hrest, htake]
    · have hlt : (((s.drop guideHead.length).takeWhile priceChar).take
          (j + 1)).length = j + 1 := by
        rw [List.length_take]
        omega
      refine List.ne_nil_of_length_pos ?_
      omega
    · exact List.all_eq_true.mpr
        (fun x hx => List.mem_takeWhile_imp (List.mem_of_mem_take hx))
  case isFalse _ => simp at h

/-- Soundness of pattern 2: a match decomposes the status into the
literal head, a nonempty `[0-9,]` group, `+`, `*`, and the anchor. -/
theorem pat2_sound {s run : List Char} (h : pat2 s = some run) :
    ∃ tail, s = guideHead ++ (run ++ '+' :: '*' :: tail) ∧
      run ≠ [] ∧ run.all priceChar ∧ (tail = [] ∨ tail = ['\n']) := by
  simp only [pat2] at h
  split at h
  case isTrue hp =>
    split at h
    case h_1 tail heq =>
      split at h
      case isTrue hok =>
        injection h with h0
        obtain ⟨hne, hanch⟩ := Bool.and_eq_true_iff.mp hok
        rw [Bool.not_eq_true'] at hne
        simp only [endAnchor, Bool.or_eq_true, List.isEmpty_eq_true,
          beq_iff_eq] at hanch
        obtain ⟨t0, ht0⟩ := List.isPrefixOf_iff_prefix.mp hp
        have ht0' : s.drop guideHead.length = t0 := by
          rw [← ht0, List.drop_left]
        refine ⟨tail, ?_, ?_, ?_, hanch⟩
        · conv_lhs => rw [← ht0]
          congr 1
          rw [← ht0']
          conv_lhs =>
            rw [← append_drop_takeWhile priceChar (s.drop guideHead.length)]
          rw [heq, h0]
        · rw [← h0]
          exact List.isEmpty_eq_false.mp hne
        · rw [← h0]
          exact List.all_eq_true.mpr (fun x hx => List.mem_takeWhile_imp hx)
      case isFalse _ => simp at h
    case h_2 _ _ => simp at h
  case isFalse _ => simp at h

/-- C1 counterexample: on status "Guide Price: £,+*" the plus pattern
matches with captured group ",", but `price` then fails on the empty
string left after comma removal, so parsing raises a price-format error —
a fourth outcome beyond the three claimed ones. -/
theorem c1_price_error_fourth_outcome :
    pat2 ("Guide Price: £,+*".toList) = some [','] ∧
    parse_guide_price_range ("Guide Price: £,+*".toList) = .error () :=
  ⟨by decide, rfl⟩

/-- C1 (amended): the three outcomes are tried in order — pattern 1 wins
and returns its two parsed groups, else pattern 2 wins and returns its
parsed group twice, else `(None, None)` with no error — provided each
captured group parses as a price (a malformed group raises instead); the
matched patterns have the claimed shapes, and the three spec examples
hold. -/
theorem c1_guide_price_outcomes (s : List Char) :
    (∀ lo hi l h, pat1 s = some (lo, hi) → price lo = some l → price hi = some h →
      parse_guide_price_range s = .ok (some l, some h)) ∧
    (pat1 s = none → ∀ run p, pat2 s = some run → price run = some p →
      parse_guide_price_range s = .ok (some p, some p)) ∧
    (pat1 s = none → pat2 s = none →
      parse_guide_price_range s = .ok (none, none)) ∧
    (∀ run, pat2 s = some run →
      ∃ tail, s = guideHead ++ (run ++ '+' :: '*' :: tail) ∧
        run ≠ [] ∧ run.all priceChar ∧ (tail = [] ∨ tail = ['\n'])) ∧
    (∀ lo hi, pat1 s = some (lo, hi) →
      ∃ mid tail, s = guideHead ++ (lo ++ (mid ++ '£' :: (hi ++ '*' :: tail))) ∧
        lo ≠ [] ∧ lo.all priceChar ∧ mid ≠ [] ∧ mid.all (fun c => c != '\n') ∧
        hi ≠ [] ∧ hi.all priceChar ∧ (tail = [] ∨ tail = ['\n'])) ∧
    parse_guide_price_range ("Guide Price: £100,000-£120,000*".toList)
      = .ok (some 100000, some 120000) ∧
    parse_guide_price_range ("Guide Price: £250,000+*".toList)
      = .ok (some 250000, some 250000) ∧
    parse_guide_price_range ("Sold Prior".toList) = .ok (none, none) := by
  refine ⟨?_, ?_, ?_, fun run h => pat2_sound h,
    fun lo hi h => pat1_sound h, by rfl, by rfl, by rfl⟩
  · intro lo hi l h h1 hl hh
    simp [parse_guide_price_range, h1, hl, hh]
  · intro h1 run p h2 hp
    simp [parse_guide_price_range, h1, h2, hp]
  · intro h1 h2
    simp [parse_guide_price_range, h1, h2]

/-- C1 witness: the plus-pattern example. -/
theorem c1_guide_price_outcomes_witness :
    parse_guide_price_range ("Guide Price: £250,000+*".toList)
      = .ok (some 250000, some 250000) :=
  (c1_guide_price_outcomes ("Guide Price: £250,000+*".toList)).2.1 (by rfl)
    ("250,000".toList) 250000 (by rfl) (by decide)

/-- C9: a 4xx/5xx status aborts with the HTTP error and leaves the
snapshot unchanged; a non-error status with an unexpected declared
encoding aborts with the encoding assertion and leaves the snapshot
unchanged; a non-error status with the expected encoding returns the
response text and overwrites the snapshot with the raw response bytes. -/
theorem c9_fetch_and_snapshot (r : Response) (st : FetchState) :
    (400 ≤ r.statusCode ∧ r.statusCode < 600 →
      html_from_url r st = (.error .httpError, st)) ∧
    (¬(400 ≤ r.statusCode ∧ r.statusCode < 600) → r.encoding ≠ PAGE_ENCODING →
      html_from_url r st = (.error .encodingAssert, st)) ∧
    (¬(400 ≤ r.statusCode ∧ r.statusCode < 600) → r.encoding = PAGE_ENCODING →
      html_from_url r st = (.ok r.text, { snapshot := some r.content })) := by
  refine ⟨?_, ?_, ?_⟩
  · intro h1
    simp only [html_from_url, raise_for_status, if_pos h1]
  · intro h1 h2
    simp only [html_from_url, raise_for_status, write_back_page_to_file,
      if_neg h1, if_neg h2]
  · intro h1 h2
    simp only [html_from_url, raise_for_status, write_back_page_to_file,
      if_neg h1, if_pos h2]

/-- C9 witness: a 404, a wrongly-encoded 200, and a well-encoded 200. -/
theorem c9_fetch_and_snapshot_witness :
    html_from_url (Response.mk 404 "utf-8" [1] ['x']) (FetchState.mk none) =
      (.error .httpError, FetchState.mk none) ∧
    html_from_url (Response.mk 200 "latin-1" [1] ['x']) (FetchState.mk (some [7])) =
      (.error .encodingAssert, FetchState.mk (some [7])) ∧
    html_from_url (Response.mk 200 "utf-8" [1] ['x']) (FetchState.mk (some [7])) =
      (.ok ['x'], FetchState.mk (some [1])) :=
  ⟨(c9_fetch_and_snapshot (Response.mk 404 "utf-8" [1] ['x'])
      (FetchState.mk none)).1 (by decide),
   (c9_fetch_and_snapshot (Response.mk 200 "latin-1" [1] ['x'])
      (FetchState.mk (some [7]))).2.1 (by decide) (by decide),
   (c9_fetch_and_snapshot (Response.mk 200 "utf-8" [1] ['x'])
      (FetchState.mk (some [7]))).2.2 (by decide) rfl⟩

end Scraper
